import Mathlib

/-!
Verification of the real-time subway tracking pipeline.

This file gives a shallow embedding of the backend poller
(`backend/src/transiter/poller.ts`), the position calculator
(`backend/src/transiter/position-calculator.ts`), the circuit breaker
(`backend/src/feeds/circuit-breaker.ts`), the client interpolation helpers
(`frontend/src/hooks/useInterpolatedTrains.ts`), the nearby-arrivals
classification and selection (`useNearbyArrivals.ts`), and the walking-time
estimate (`useWalkingTime.ts`), and proves the specified properties.

Modelling conventions, used throughout:
* JavaScript numbers are modelled as `ℚ` (all arithmetic in the embedded code
  is +, −, ×, ÷, comparisons, floor/ceil/round — exact on rationals).
* Epoch-millisecond and epoch-second values are `ℚ` as in the source.
* JSON string fields holding numeric timestamps (`updatedAt`,
  `arrival.time`, `departure.time`) are modelled by their parsed values
  (`Option ℚ`); `none` stands for an absent or empty (falsy) string.
* The two `Date.now()` reads of one poll cycle (in `poll` and inside
  `calculateTrainPosition`) are modelled as a single instant `nowMs`.
* The trigonometric great-circle bearing (`calculateBearing` in
  position-calculator.ts) is taken as an uninterpreted function parameter:
  no claim below depends on its values, and its transcendental evaluation
  is outside the rational embedding.
* JavaScript's stable `Array.prototype.sort` is modelled by
  `List.insertionSort`, which is stable for the comparators used here and
  therefore produces the identical output list.
-/

namespace Subway

/-! ### Shared numeric helpers (useInterpolatedTrains.ts) -/

/-- `clamp01` from useInterpolatedTrains.ts: clamp a value between 0 and 1
(`Math.max(0, Math.min(1, value))`). -/
def clamp01 (value : ℚ) : ℚ := max 0 (min 1 value)

/-- `lerp` from useInterpolatedTrains.ts: linear interpolation
`start + (end - start) * t`. -/
def lerp (start stop t : ℚ) : ℚ := start + (stop - start) * t

/-- `easeOutCubic` from useInterpolatedTrains.ts: `1 - (1 - t)^3`. -/
def easeOutCubic (t : ℚ) : ℚ := 1 - (1 - t) ^ 3

/-- JavaScript's `%` operator on numbers: remainder with the quotient
truncated toward zero, `x - y * trunc(x / y)`. -/
def jsMod (x y : ℚ) : ℚ :=
  if 0 ≤ x / y then x - y * (⌊x / y⌋ : ℤ) else x - y * (⌈x / y⌉ : ℤ)

/-- JavaScript's `Number.prototype.toFixed(5)`, modelled as the integer
numerator of the rounded 5-decimal value: nearest integer to `q·10⁵`, ties
toward +∞ (the ECMAScript "pick the larger n" rule). Two numbers render to
equal `toFixed(5)` strings (of equal sign handling for the values occurring
here) exactly when these integers agree. -/
def toFixed5 (q : ℚ) : ℤ := round (q * 100000)

/-! ### Data model (`@live-subway/shared` types) -/

/-- Coarse travel direction of a `Train` (`"N" | "S"`). -/
inductive Direction where
  | N
  | S
deriving DecidableEq

/-- `Train["status"]`: `"INCOMING" | "AT_STOP" | "IN_TRANSIT"`. -/
inductive TrainStatus where
  | INCOMING
  | AT_STOP
  | IN_TRANSIT
deriving DecidableEq

/-- `StopTiming`: one endpoint of a linear interpolation segment —
`{stopId, latitude, longitude, time}`, `time` in epoch seconds. -/
structure StopTiming where
  stopId : String
  latitude : ℚ
  longitude : ℚ
  time : ℚ
deriving DecidableEq

/-- The `Train` record built by the poller. The optional `bearing` field is
omitted: it is produced by the uninterpreted bearing function and no claim
below reads it from the `Train` record. -/
structure Train where
  id : String
  line : String
  direction : Direction
  latitude : ℚ
  longitude : ℚ
  timestamp : ℚ
  stopId : String
  status : TrainStatus
  prevStop : Option StopTiming
  nextStop : Option StopTiming
deriving DecidableEq

/-- A cached stop coordinate (`getCachedStopCoordinates` result). -/
structure Coord where
  lat : ℚ
  lon : ℚ
deriving DecidableEq

/-! ### Position calculator (position-calculator.ts) -/

/-- `TransiterVehicle.currentStatus` (absent = `undefined` in the source). -/
inductive VehicleStatus where
  | INCOMING_AT
  | STOPPED_AT
  | IN_TRANSIT_TO
deriving DecidableEq

/-- The `trip` sub-object of a vehicle; `routeId` flattens `trip.route?.id`
(`none` = absent route object, absent id, or empty/falsy id string). -/
structure VehicleTrip where
  routeId : Option String
  directionId : Option Bool
deriving DecidableEq

/-- A Transiter vehicle record, with the fields read by the pipeline.
`stopId` flattens `stop?.id` (`none` = absent or empty), and `updatedAt`
is the parsed Unix-seconds value of the `updatedAt` string. -/
structure TransiterVehicle where
  id : String
  trip : Option VehicleTrip
  stopId : Option String
  currentStatus : Option VehicleStatus
  updatedAt : Option ℚ
deriving DecidableEq

/-- One schedule entry (`StopTime`): `stopId` flattens `stop.id`, and
`arrival`/`departure` are the parsed `arrival?.time` / `departure?.time`
values (`none` = absent object, absent time, or empty string). -/
structure StopTime where
  stopId : String
  arrival : Option ℚ
  departure : Option ℚ
deriving DecidableEq

/-- `TripData`: the ordered stop-time schedule of one trip. -/
structure TripData where
  stopTimes : List StopTime
deriving DecidableEq

/-- The trailing-direction-letter strip `stopId.replace(/[NS]$/, "")`. -/
def stripDirSuffix (s : String) : String :=
  if s.endsWith "N" ∨ s.endsWith "S" then s.dropRight 1 else s

/-- `findStopInTrip`: exact stop-id match first, then the match with a
trailing N/S letter stripped from both sides; returns the index and entry
(the source's `findIndex` plus array access is modelled by a search over
the enumerated list). -/
def findStopInTrip (stopTimes : List StopTime) (stopId : String) :
    Option (ℕ × StopTime) :=
  match stopTimes.enum.find? (fun p => p.2.stopId == stopId) with
  | some p => some p
  | none =>
    stopTimes.enum.find? (fun p => stripDirSuffix p.2.stopId == stripDirSuffix stopId)

/-- `PositionData`: result of `calculateTrainPosition`. The `bearing` field
records the (uninterpreted) bearing value when the source computes one. -/
structure PositionData where
  latitude : ℚ
  longitude : ℚ
  prevStop : Option StopTiming := none
  nextStop : Option StopTiming := none
  bearing : Option ℚ := none
deriving DecidableEq

/-- `calculateTrainPosition` from position-calculator.ts.

`cache` is `getCachedStopCoordinates`; `calculateBearing` is the
uninterpreted great-circle bearing function; `now` is the `Date.now()/1000`
epoch-seconds read. The in-bounds array accesses `stopTimes[i+1]` and
`stopTimes[i-1]` (guarded in the source by the index checks) are modelled
with `List.get?`; the guards make the `none` fallbacks unreachable. -/
def calculateTrainPosition (cache : String → Option Coord)
    (calculateBearing : ℚ → ℚ → ℚ → ℚ → ℚ)
    (vehicle : TransiterVehicle) (tripData : Option TripData) (now : ℚ) :
    Option PositionData :=
  match vehicle.stopId with
  | none => none
  | some stopId =>
    match cache stopId with
    | none => none
    | some currentStopCoords =>
      let plain : PositionData :=
        { latitude := currentStopCoords.lat, longitude := currentStopCoords.lon }
      if vehicle.currentStatus = some VehicleStatus.STOPPED_AT then
        some (match tripData with
          | none => plain
          | some td =>
            match findStopInTrip td.stopTimes stopId with
            | none => plain
            | some (i, _) =>
              if i < td.stopTimes.length - 1 then
                match td.stopTimes.get? (i + 1) with
                | none => plain
                | some nextStopTime =>
                  match cache nextStopTime.stopId with
                  | none => plain
                  | some nextCoords =>
                    { latitude := currentStopCoords.lat,
                      longitude := currentStopCoords.lon,
                      bearing := some (calculateBearing currentStopCoords.lat
                        currentStopCoords.lon nextCoords.lat nextCoords.lon) }
              else plain)
      else
        match tripData with
        | none => some plain
        | some td =>
          if td.stopTimes.length = 0 then some plain
          else
            match findStopInTrip td.stopTimes stopId with
            | none => some plain
            | some (i, currentStopTime) =>
              if i = 0 then some plain
              else
                match td.stopTimes.get? (i - 1) with
                | none => some plain
                | some prevStopTime =>
                  if vehicle.currentStatus = some VehicleStatus.INCOMING_AT ∨
                      vehicle.currentStatus = some VehicleStatus.IN_TRANSIT_TO ∨
                      vehicle.currentStatus = none then
                    match cache prevStopTime.stopId with
                    | none => some plain
                    | some prevCoords =>
                      let prevDeparture : Option ℚ :=
                        prevStopTime.departure.orElse fun _ => prevStopTime.arrival
                      let currentArrival : Option ℚ := currentStopTime.arrival
                      match prevDeparture, currentArrival with
                      | some pd, some ca =>
                        -- `if (prevDeparture && currentArrival && ...)`: the
                        -- parsed numbers must be truthy (non-zero) too.
                        if pd ≠ 0 ∧ ca ≠ 0 ∧ ca > pd then
                          let prevStop : StopTiming :=
                            { stopId := prevStopTime.stopId,
                              latitude := prevCoords.lat,
                              longitude := prevCoords.lon, time := pd }
                          let nextStop : StopTiming :=
                            { stopId := currentStopTime.stopId,
                              latitude := currentStopCoords.lat,
                              longitude := currentStopCoords.lon, time := ca }
                          let totalTime := ca - pd
                          let elapsed := now - pd
                          let progress := max 0 (min 1 (elapsed / totalTime))
                          let currentLat := prevCoords.lat +
                            (currentStopCoords.lat - prevCoords.lat) * progress
                          let currentLon := prevCoords.lon +
                            (currentStopCoords.lon - prevCoords.lon) * progress
                          some { latitude := currentLat, longitude := currentLon,
                                 prevStop := some prevStop,
                                 nextStop := some nextStop,
                                 bearing := some (calculateBearing currentLat
                                   currentLon currentStopCoords.lat
                                   currentStopCoords.lon) }
                        else some plain
                      | _, _ => some plain
                  else some plain

/-! ### Poller (poller.ts) -/

/-- `STALE_THRESHOLD_MS = 5 * 60 * 1000`. -/
def STALE_THRESHOLD_MS : ℚ := 5 * 60 * 1000

/-- `vehicleToTrain` from poller.ts. `nowMs` is the cycle's `Date.now()`
read (in ms); `calculateTrainPosition` receives it in epoch seconds. -/
def vehicleToTrain (cache : String → Option Coord)
    (calculateBearing : ℚ → ℚ → ℚ → ℚ → ℚ)
    (vehicle : TransiterVehicle) (tripData : Option TripData) (nowMs : ℚ) :
    Option Train :=
  match vehicle.trip.bind (fun t => t.routeId) with
  | none => none
  | some routeId =>
    match vehicle.stopId with
    | none => none
    | some stopId =>
      match calculateTrainPosition cache calculateBearing vehicle tripData
          (nowMs / 1000) with
      | none => none
      | some positionData =>
        let timestamp : ℚ :=
          match vehicle.updatedAt with
          | some t => t * 1000
          | none => nowMs
        let direction : Direction :=
          match vehicle.trip.bind (fun t => t.directionId) with
          | some b => if b then Direction.S else Direction.N
          | none => if stopId.endsWith "S" then Direction.S else Direction.N
        let status : TrainStatus :=
          match vehicle.currentStatus with
          | some VehicleStatus.INCOMING_AT => TrainStatus.INCOMING
          | some VehicleStatus.STOPPED_AT => TrainStatus.AT_STOP
          | some VehicleStatus.IN_TRANSIT_TO => TrainStatus.IN_TRANSIT
          | none => TrainStatus.IN_TRANSIT
        some { id := vehicle.id, line := routeId, direction := direction,
               latitude := positionData.latitude,
               longitude := positionData.longitude,
               timestamp := timestamp, stopId := stopId, status := status,
               prevStop := positionData.prevStop,
               nextStop := positionData.nextStop }

/-- One hash component: `` `${id}:${lat.toFixed(5)},${lon.toFixed(5)}` ``.
The string is modelled by the tuple of its parts; equality of the parts is
what equality of the formatted strings expresses for the ids in use. -/
def hashEntry (t : Train) : String × ℤ × ℤ :=
  (t.id, toFixed5 t.latitude, toFixed5 t.longitude)

/-- `computeHash` from poller.ts: sort the trains by `id`
(`localeCompare`, here the lexicographic `String` order) with JavaScript's
stable sort, then join the per-train components. -/
def computeHash (trains : List Train) : List (String × ℤ × ℤ) :=
  (List.insertionSort (fun a b => a.id ≤ b.id) trains).map hashEntry

/-- The poller's module-level state that one `poll` cycle reads/writes. -/
structure PollState where
  currentTrains : List Train
  lastUpdateHash : List (String × ℤ × ℤ)
deriving DecidableEq

/-- The staleness test of poll: `now - train.timestamp <= STALE_THRESHOLD_MS`. -/
def surviveStale (nowMs : ℚ) (train : Train) : Bool :=
  nowMs - train.timestamp ≤ STALE_THRESHOLD_MS

/-- The convert-and-filter loop of `poll`: each vehicle is converted with its
trip data (`tripDataMap.get(vehicle.id) || null`) and kept when non-null and
not stale. -/
def pollTrains (cache : String → Option Coord)
    (calculateBearing : ℚ → ℚ → ℚ → ℚ → ℚ)
    (vehicles : List TransiterVehicle) (tripDataMap : String → Option TripData)
    (nowMs : ℚ) : List Train :=
  vehicles.filterMap fun vehicle =>
    match vehicleToTrain cache calculateBearing vehicle (tripDataMap vehicle.id)
        nowMs with
    | some train => if surviveStale nowMs train then some train else none
    | none => none

/-- One successful `poll` cycle from poller.ts: convert and filter the
vehicles, publish the snapshot, compute the content hash, and invoke the
broadcast callback exactly when the hash differs from the previous cycle's.
Returns the new state and whether the broadcast callback was invoked. -/
def poll (st : PollState) (cache : String → Option Coord)
    (calculateBearing : ℚ → ℚ → ℚ → ℚ → ℚ)
    (vehicles : List TransiterVehicle) (tripDataMap : String → Option TripData)
    (nowMs : ℚ) : PollState × Bool :=
  let trains := pollTrains cache calculateBearing vehicles tripDataMap nowMs
  let hash := computeHash trains
  if hash ≠ st.lastUpdateHash then
    ({ currentTrains := trains, lastUpdateHash := hash }, true)
  else
    ({ currentTrains := trains, lastUpdateHash := st.lastUpdateHash }, false)

/-! ### Client interpolation (useInterpolatedTrains.ts) -/

/-- `getTargetPosition` from useInterpolatedTrains.ts, with the
`Date.now()/1000` read taken as the explicit parameter `now` (epoch
seconds). Returns `(lat, lon)`. -/
def getTargetPosition (train : Train) (now : ℚ) : ℚ × ℚ :=
  match train.prevStop, train.nextStop with
  | some prevStop, some nextStop =>
    let totalTime := nextStop.time - prevStop.time
    if totalTime ≤ 0 then (train.latitude, train.longitude)
    else
      let elapsed := now - prevStop.time
      let progress := clamp01 (elapsed / totalTime)
      (lerp prevStop.latitude nextStop.latitude progress,
       lerp prevStop.longitude nextStop.longitude progress)
  | _, _ => (train.latitude, train.longitude)

/-- `interpolateBearing` from useInterpolatedTrains.ts: shortest rotational
path — the raw delta is folded into [−180, 180] by the two sequential
adjustments, then eased and the result normalized with `% 360`. -/
def interpolateBearing (fromBearing toBearing progress : ℚ) : ℚ :=
  let diff0 := toBearing - fromBearing
  let diff1 := if diff0 > 180 then diff0 - 360 else diff0
  let diff := if diff1 < -180 then diff1 + 360 else diff1
  let easedProgress := easeOutCubic progress
  jsMod (fromBearing + diff * easedProgress + 360) 360

/-! ### Circuit breaker (circuit-breaker.ts) -/

/-- `CircuitState`. -/
inductive CircuitState where
  | CLOSED
  | OPEN
  | HALF_OPEN
deriving DecidableEq

/-- `CircuitBreakerConfig`. -/
structure CircuitBreakerConfig where
  failureThreshold : ℕ
  recoveryTimeoutMs : ℚ
deriving DecidableEq

/-- `DEFAULT_CONFIG`: threshold 3 failures, 60 s recovery timeout. -/
def DEFAULT_CONFIG : CircuitBreakerConfig :=
  { failureThreshold := 3, recoveryTimeoutMs := 60000 }

/-- The mutable fields of a `CircuitBreaker` instance, with the constructor
defaults. -/
structure CircuitBreaker where
  state : CircuitState := CircuitState.CLOSED
  failureCount : ℕ := 0
  lastFailureTime : ℚ := 0
  config : CircuitBreakerConfig := DEFAULT_CONFIG
deriving DecidableEq

/-- The `isOpen` getter: reads `Date.now()` (parameter `now`), may lazily
transition `OPEN → HALF_OPEN`, and returns the boolean together with the
(possibly updated) instance. -/
def CircuitBreaker.isOpen (cb : CircuitBreaker) (now : ℚ) :
    Bool × CircuitBreaker :=
  if cb.state = CircuitState.CLOSED then (false, cb)
  else if cb.state = CircuitState.OPEN ∧
      now - cb.lastFailureTime ≥ cb.config.recoveryTimeoutMs then
    (false, { cb with state := CircuitState.HALF_OPEN })
  else (decide (cb.state = CircuitState.OPEN), cb)

/-- `recordSuccess`: a single success closes the circuit. -/
def CircuitBreaker.recordSuccess (cb : CircuitBreaker) : CircuitBreaker :=
  { cb with state := CircuitState.CLOSED, failureCount := 0 }

/-- `recordFailure` at instant `now` (`Date.now()`). -/
def CircuitBreaker.recordFailure (cb : CircuitBreaker) (now : ℚ) :
    CircuitBreaker :=
  let failureCount := cb.failureCount + 1
  { cb with
    failureCount := failureCount, lastFailureTime := now,
    state := (if cb.config.failureThreshold ≤ failureCount then
      CircuitState.OPEN else cb.state) }

/-! ### Nearby arrivals (useNearbyArrivals.ts) -/

/-- The severity classification strings. -/
inductive Severity where
  | ideal
  | tooSoon
  | longWait
deriving DecidableEq

/-- `IDEAL_WINDOW_MIN = 0.5` minutes. -/
def IDEAL_WINDOW_MIN : ℚ := 1 / 2

/-- `IDEAL_WINDOW_MAX = 3` minutes. -/
def IDEAL_WINDOW_MAX : ℚ := 3

/-- `getTrainSeverity(arrivalTimeSec, walkingTimeMin, now)` from
useNearbyArrivals.ts (`now` in epoch seconds). -/
def getTrainSeverity (arrivalTimeSec walkingTimeMin now : ℚ) : Severity :=
  let leaveAtSec := arrivalTimeSec - walkingTimeMin * 60
  let minutesToLeave := (leaveAtSec - now) / 60
  if IDEAL_WINDOW_MIN ≤ minutesToLeave ∧ minutesToLeave ≤ IDEAL_WINDOW_MAX then
    Severity.ideal
  else if minutesToLeave < IDEAL_WINDOW_MIN then Severity.tooSoon
  else Severity.longWait

/-- A `StopArrival`, restricted to the fields the processing reads. -/
structure StopArrival where
  routeId : String
  arrivalTime : ℚ
deriving DecidableEq

/-- A `ProcessedTrain` (the `severity` field is always set by
`processArrivals`, so it is not optional here). -/
structure ProcessedTrain where
  routeId : String
  arrivalTime : ℚ
  leaveAtMinutes : ℚ
  isIdeal : Bool
  isAlternative : Bool
  severity : Severity
deriving DecidableEq

/-- `processArrivals(arrivals, walkingTimeMin, now)` (`now` in ms): keep
future arrivals, annotate each with severity and leave-by countdown, sort by
arrival time (stable ascending sort). -/
def processArrivals (arrivals : List StopArrival) (walkingTimeMin now : ℚ) :
    List ProcessedTrain :=
  let nowSec := now / 1000
  List.insertionSort (fun a b => a.arrivalTime ≤ b.arrivalTime)
    ((arrivals.filter fun arrival => nowSec < arrival.arrivalTime).map
      fun arrival =>
        let severity := getTrainSeverity arrival.arrivalTime walkingTimeMin nowSec
        let leaveAtSec := arrival.arrivalTime - walkingTimeMin * 60
        let leaveAtMin := (leaveAtSec - nowSec) / 60
        { routeId := arrival.routeId, arrivalTime := arrival.arrivalTime,
          leaveAtMinutes := max 0 leaveAtMin,
          isIdeal := severity = Severity.ideal,
          isAlternative := false,
          severity := severity })

/-- One step of building the `byRoute` JavaScript `Map`: append the train to
its route's group, creating the group at the end on first sight of the route
(JavaScript `Map` iteration follows key insertion order). -/
def insertByRoute (m : List (String × List ProcessedTrain))
    (t : ProcessedTrain) : List (String × List ProcessedTrain) :=
  match m with
  | [] => [(t.routeId, [t])]
  | (k, g) :: rest =>
    if k = t.routeId then (k, g ++ [t]) :: rest
    else (k, g) :: insertByRoute rest t

/-- The `byRoute` grouping loop of `selectBestTrains`. -/
def buildByRoute (processed : List ProcessedTrain) :
    List (String × List ProcessedTrain) :=
  processed.foldl insertByRoute []

/-- The per-route body of `selectBestTrains`' loop: drop too-soon trains;
pick the first ideal one, else the first catchable one flagged as an
alternative; `none` models the `continue` when no train is catchable. -/
def pickForRoute (trains : List ProcessedTrain) : Option ProcessedTrain :=
  let catchable := trains.filter fun t => t.severity ≠ Severity.tooSoon
  match catchable.find? (fun t => t.isIdeal) with
  | some ideal => some ideal
  | none =>
    match catchable with
    | [] => none
    | c :: _ => some { c with isAlternative := true }

/-- `selectBestTrains` from useNearbyArrivals.ts: group by route, pick at
most one train per route, sort the result by arrival time. -/
def selectBestTrains (processed : List ProcessedTrain) : List ProcessedTrain :=
  List.insertionSort (fun a b => a.arrivalTime ≤ b.arrivalTime)
    ((buildByRoute processed).filterMap fun kg => pickForRoute kg.2)

/-! ### Walking time (useWalkingTime.ts) -/

/-- `WALKING_SPEED_MPH = 3`. -/
def WALKING_SPEED_MPH : ℚ := 3

/-- `WALKING_SPEED_KMH = WALKING_SPEED_MPH * 1.60934`. -/
def WALKING_SPEED_KMH : ℚ := WALKING_SPEED_MPH * (160934 / 100000)

/-- `STATION_ENTRY_BUFFER_MIN = 2`. -/
def STATION_ENTRY_BUFFER_MIN : ℚ := 2

/-- `calculateWalkingTime` from useWalkingTime.ts, expressed as a function of
the haversine distance `distanceKm` produced by `calculateDistance` (whose
trigonometric evaluation is outside the rational embedding; the claims below
quantify over the distance): `Math.ceil(distanceKm / speed * 60 + buffer)`. -/
def calculateWalkingTime (distanceKm : ℚ) : ℤ :=
  ⌈distanceKm / WALKING_SPEED_KMH * 60 + STATION_ENTRY_BUFFER_MIN⌉

/-! ### Helper lemmas -/

theorem clamp01_nonneg (x : ℚ) : 0 ≤ clamp01 x := le_max_left 0 _

theorem clamp01_le_one (x : ℚ) : clamp01 x ≤ 1 :=
  max_le zero_le_one (min_le_left 1 x)

theorem clamp01_of_nonpos {x : ℚ} (h : x ≤ 0) : clamp01 x = 0 := by
  simp only [clamp01, min_eq_right (h.trans zero_le_one), max_eq_left h]

theorem clamp01_of_one_le {x : ℚ} (h : 1 ≤ x) : clamp01 x = 1 := by
  simp only [clamp01, min_eq_left h, max_eq_right zero_le_one]

theorem lerp_zero (a b : ℚ) : lerp a b 0 = a := by simp [lerp]

theorem lerp_one (a b : ℚ) : lerp a b 1 = b := by simp [lerp]

/-- Boundary behaviour of the clamped progress fraction shared by the server
and client interpolation. -/
theorem progress_boundary (T0 T1 now : ℚ) (h : T0 < T1) :
    (now ≤ T0 → clamp01 ((now - T0) / (T1 - T0)) = 0) ∧
    (T1 ≤ now → clamp01 ((now - T0) / (T1 - T0)) = 1) := by
  have hd : 0 < T1 - T0 := sub_pos.2 h
  constructor
  · intro hle
    apply clamp01_of_nonpos
    apply div_nonpos_of_nonpos_of_nonneg <;> linarith
  · intro hge
    exact clamp01_of_one_le ((le_div_iff hd).2 (by linarith))

/-! ### C6: ideal-window classification boundary -/

/-- **C6**: for every arrival, with
`minutesToLeave = (arrivalTime − walkingTime·60 − now)/60`, the severity is
`ideal` iff `0.5 ≤ minutesToLeave ≤ 3`, `too-soon` iff
`minutesToLeave < 0.5`, and `long-wait` otherwise (iff `minutesToLeave > 3`);
in particular `minutesToLeave = 0.5` and `= 3.0` are `ideal`, `3.0001` is
`long-wait` and `−0.0001` is `too-soon`. -/
theorem C6_severity_classification :
    (∀ arrivalTimeSec walkingTimeMin now : ℚ,
      (getTrainSeverity arrivalTimeSec walkingTimeMin now = Severity.ideal ↔
        1 / 2 ≤ (arrivalTimeSec - walkingTimeMin * 60 - now) / 60 ∧
          (arrivalTimeSec - walkingTimeMin * 60 - now) / 60 ≤ 3) ∧
      (getTrainSeverity arrivalTimeSec walkingTimeMin now = Severity.tooSoon ↔
        (arrivalTimeSec - walkingTimeMin * 60 - now) / 60 < 1 / 2) ∧
      (getTrainSeverity arrivalTimeSec walkingTimeMin now = Severity.longWait ↔
        3 < (arrivalTimeSec - walkingTimeMin * 60 - now) / 60)) ∧
    getTrainSeverity 30 0 0 = Severity.ideal ∧
    getTrainSeverity 180 0 0 = Severity.ideal ∧
    getTrainSeverity (180 + 6 / 1000) 0 0 = Severity.longWait ∧
    getTrainSeverity (-(6 / 1000)) 0 0 = Severity.tooSoon := by
  have key : ∀ a w n : ℚ,
      (getTrainSeverity a w n = Severity.ideal ↔
        1 / 2 ≤ (a - w * 60 - n) / 60 ∧ (a - w * 60 - n) / 60 ≤ 3) ∧
      (getTrainSeverity a w n = Severity.tooSoon ↔ (a - w * 60 - n) / 60 < 1 / 2) ∧
      (getTrainSeverity a w n = Severity.longWait ↔ 3 < (a - w * 60 - n) / 60) := by
    intro a w n
    simp only [getTrainSeverity, IDEAL_WINDOW_MIN, IDEAL_WINDOW_MAX]
    split_ifs with h h2
    · refine ⟨iff_of_true rfl h, iff_of_false (by simp) ?_, iff_of_false (by simp) ?_⟩
      · exact not_lt.2 h.1
      · exact not_lt.2 h.2
    · push_neg at h
      refine ⟨iff_of_false (by simp) ?_, iff_of_true rfl h2, iff_of_false (by simp) ?_⟩
      · rintro ⟨h3, _⟩
        exact absurd h2 (not_lt.2 h3)
      · intro h3
        exact absurd h2 (not_lt.2 (by linarith))
    · push_neg at h h2
      refine ⟨iff_of_false (by simp) ?_, iff_of_false (by simp) (not_lt.2 h2), ?_⟩
      · rintro ⟨h3, h4⟩
        exact absurd (h h3) (not_lt.2 h4)
      · exact iff_of_true rfl (h h2)
  refine ⟨key, ?_, ?_, ?_, ?_⟩
  · exact ((key 30 0 0).1).2 (by norm_num)
  · exact ((key 180 0 0).1).2 (by norm_num)
  · exact ((key (180 + 6 / 1000) 0 0).2.2).2 (by norm_num)
  · exact ((key (-(6 / 1000)) 0 0).2.1).2 (by norm_num)

/-! ### C9: walking-time estimate -/

/-- **C9**: `calculateWalkingTime` equals
`ceil(distanceKm / walkingSpeedKmh * 60) + 2` (the source's
`ceil(walkMinutes + 2)` coincides because the buffer is an integer), it is
non-decreasing in the distance, and at distance 0 it returns exactly 2. -/
theorem C9_walking_time :
    (∀ d : ℚ, calculateWalkingTime d = ⌈d / WALKING_SPEED_KMH * 60⌉ + 2) ∧
    (∀ d e : ℚ, d ≤ e → calculateWalkingTime d ≤ calculateWalkingTime e) ∧
    calculateWalkingTime 0 = 2 := by
  have hpos : (0 : ℚ) < WALKING_SPEED_KMH := by
    unfold WALKING_SPEED_KMH WALKING_SPEED_MPH
    norm_num
  refine ⟨?_, ?_, ?_⟩
  · intro d
    unfold calculateWalkingTime STATION_ENTRY_BUFFER_MIN
    rw [show (2 : ℚ) = ((2 : ℤ) : ℚ) by norm_num, Int.ceil_add_int]
  · intro d e hde
    unfold calculateWalkingTime
    apply Int.ceil_le_ceil
    gcongr
  · unfold calculateWalkingTime STATION_ENTRY_BUFFER_MIN
    norm_num

/-- Witness for C9 at distance 0 ≤ 1. -/
theorem C9_walking_time_witness :
    calculateWalkingTime 0 ≤ calculateWalkingTime 1 :=
  C9_walking_time.2.1 0 1 (by norm_num)

/-! ### C7: bearing wraparound -/

/-- **C7**: interpolating the bearing from 350° toward 10° at any progress
fraction in [0, 1] yields a value in [350°, 360°) ∪ [0°, 10°], never a value
the long way around through 180°. -/
theorem C7_bearing_wraparound (t : ℚ) (h0 : 0 ≤ t) (h1 : t ≤ 1) :
    (350 ≤ interpolateBearing 350 10 t ∧ interpolateBearing 350 10 t < 360) ∨
    (0 ≤ interpolateBearing 350 10 t ∧ interpolateBearing 350 10 t ≤ 10) := by
  have he0 : 0 ≤ easeOutCubic t := by
    unfold easeOutCubic
    have h3 : (1 - t) ^ 3 ≤ 1 := pow_le_one₀ (by linarith) (by linarith)
    linarith
  have he1 : easeOutCubic t ≤ 1 := by
    unfold easeOutCubic
    have h3 : 0 ≤ (1 - t) ^ 3 := pow_nonneg (by linarith) 3
    linarith
  have hform : interpolateBearing 350 10 t =
      jsMod (350 + 20 * easeOutCubic t + 360) 360 := by
    unfold interpolateBearing
    norm_num
  rw [hform]
  unfold jsMod
  have hx0 : (0 : ℚ) ≤ (350 + 20 * easeOutCubic t + 360) / 360 := by
    apply div_nonneg _ (by norm_num)
    linarith
  rw [if_pos hx0]
  rcases lt_or_le (350 + 20 * easeOutCubic t + 360) 720 with hc | hc
  · left
    have hf : ⌊(350 + 20 * easeOutCubic t + 360) / 360⌋ = 1 := by
      rw [Int.floor_eq_iff]
      constructor
      · rw [le_div_iff (by norm_num)]
        push_cast
        linarith
      · rw [div_lt_iff (by norm_num)]
        push_cast
        linarith
    rw [hf]
    push_cast
    constructor <;> linarith
  · right
    have hf : ⌊(350 + 20 * easeOutCubic t + 360) / 360⌋ = 2 := by
      rw [Int.floor_eq_iff]
      constructor
      · rw [le_div_iff (by norm_num)]
        push_cast
        linarith
      · rw [div_lt_iff (by norm_num)]
        push_cast
        linarith
    rw [hf]
    push_cast
    constructor <;> linarith

/-- Witness for C7 at progress 1/2. -/
theorem C7_bearing_wraparound_witness :
    (350 ≤ interpolateBearing 350 10 (1 / 2) ∧
      interpolateBearing 350 10 (1 / 2) < 360) ∨
    (0 ≤ interpolateBearing 350 10 (1 / 2) ∧
      interpolateBearing 350 10 (1 / 2) ≤ 10) :=
  C7_bearing_wraparound (1 / 2) (by norm_num) (by norm_num)

/-! ### C3 / C4: circuit breaker -/

/-- **C3**: from the initial Closed breaker, the first two `recordFailure`
calls leave `isOpen` false, the third makes `isOpen` true, and once the 60 s
recovery timeout has elapsed a single `recordSuccess` (on the attempt let
through by the half-open check) leaves the breaker Closed with failure count
0. -/
theorem C3_breaker_recovery (t1 t2 t3 tS : ℚ) (hElapsed : t3 + 60000 ≤ tS) :
    ((({} : CircuitBreaker).recordFailure t1).isOpen t1).1 = false ∧
    (((({} : CircuitBreaker).recordFailure t1).recordFailure t2).isOpen t2).1
      = false ∧
    ((((({} : CircuitBreaker).recordFailure t1).recordFailure t2).recordFailure
      t3).isOpen t3).1 = true ∧
    ((((({} : CircuitBreaker).recordFailure t1).recordFailure t2).recordFailure
      t3).isOpen tS).1 = false ∧
    (((((({} : CircuitBreaker).recordFailure t1).recordFailure t2).recordFailure
      t3).isOpen tS).2.recordSuccess).state = CircuitState.CLOSED ∧
    (((((({} : CircuitBreaker).recordFailure t1).recordFailure t2).recordFailure
      t3).isOpen tS).2.recordSuccess).failureCount = 0 := by
  have h1 : (60000 : ℚ) ≤ tS - t3 := by linarith
  have h2 : ¬ ((60000 : ℚ) ≤ 0) := by norm_num
  simp [CircuitBreaker.recordFailure, CircuitBreaker.isOpen,
    CircuitBreaker.recordSuccess, DEFAULT_CONFIG, h1, h2, ge_iff_le]

/-- Witness for C3 with failures at 0 and the success attempt at 60000. -/
theorem C3_breaker_recovery_witness :
    ((({} : CircuitBreaker).recordFailure 0).isOpen 0).1 = false ∧
    (((({} : CircuitBreaker).recordFailure 0).recordFailure 0).isOpen 0).1
      = false ∧
    ((((({} : CircuitBreaker).recordFailure 0).recordFailure 0).recordFailure
      0).isOpen 0).1 = true ∧
    ((((({} : CircuitBreaker).recordFailure 0).recordFailure 0).recordFailure
      0).isOpen 60000).1 = false ∧
    (((((({} : CircuitBreaker).recordFailure 0).recordFailure 0).recordFailure
      0).isOpen 60000).2.recordSuccess).state = CircuitState.CLOSED ∧
    (((((({} : CircuitBreaker).recordFailure 0).recordFailure 0).recordFailure
      0).isOpen 60000).2.recordSuccess).failureCount = 0 :=
  C3_breaker_recovery 0 0 0 60000 (by norm_num)

/-- **C4 counterexample**: after 3 failures at time 0 and the recovery
timeout elapsed, the first `isOpen` check at 60000 returns false and moves
the breaker to HalfOpen — but a second `isOpen` check, with no success or
failure recorded in between, returns false again, contradicting the claim
that the trial check returns false exactly once. -/
theorem C4_counterexample :
    ((((({} : CircuitBreaker).recordFailure 0).recordFailure 0).recordFailure
      0).isOpen 60000).1 = false ∧
    ((((({} : CircuitBreaker).recordFailure 0).recordFailure 0).recordFailure
      0).isOpen 60000).2.state = CircuitState.HALF_OPEN ∧
    ((((((({} : CircuitBreaker).recordFailure 0).recordFailure 0).recordFailure
      0).isOpen 60000).2.isOpen 60000).1) = false := by
  simp [CircuitBreaker.recordFailure, CircuitBreaker.isOpen, DEFAULT_CONFIG]

/-- **C4 (amended)**: once the breaker is Open and the recovery timeout has
elapsed, the next `isOpen` check returns false and moves the breaker to
HalfOpen; but the trial is not limited to a single check — every further
`isOpen` check while the breaker is HalfOpen (no success or failure recorded
yet) also returns false and leaves it HalfOpen, until a `recordSuccess`
closes it (count 0) or a `recordFailure` (count already at threshold)
reopens it. -/
theorem C4_amended_half_open (cb : CircuitBreaker) (now later : ℚ)
    (hOpen : cb.state = CircuitState.OPEN)
    (hElapsed : cb.config.recoveryTimeoutMs ≤ now - cb.lastFailureTime) :
    (cb.isOpen now).1 = false ∧
    (cb.isOpen now).2.state = CircuitState.HALF_OPEN ∧
    (∀ cb2 : CircuitBreaker, cb2.state = CircuitState.HALF_OPEN →
      (cb2.isOpen later).1 = false ∧
      (cb2.isOpen later).2.state = CircuitState.HALF_OPEN) ∧
    (∀ cb2 : CircuitBreaker, cb2.state = CircuitState.HALF_OPEN →
      cb2.recordSuccess.state = CircuitState.CLOSED ∧
      cb2.recordSuccess.failureCount = 0) ∧
    (∀ cb2 : CircuitBreaker, cb2.state = CircuitState.HALF_OPEN →
      cb2.config.failureThreshold ≤ cb2.failureCount + 1 →
      (cb2.recordFailure later).state = CircuitState.OPEN) := by
  refine ⟨?_, ?_, ?_, ?_, ?_⟩
  · simp [CircuitBreaker.isOpen, hOpen, ge_iff_le, hElapsed]
  · simp [CircuitBreaker.isOpen, hOpen, ge_iff_le, hElapsed]
  · intro cb2 hHalf
    simp [CircuitBreaker.isOpen, hHalf]
  · intro cb2 hHalf
    simp [CircuitBreaker.recordSuccess]
  · intro cb2 hHalf hThresh
    simp [CircuitBreaker.recordFailure, hThresh]

/-- Witness for C4's amended statement on a concrete Open breaker. -/
theorem C4_amended_half_open_witness :
    (({ state := CircuitState.OPEN, failureCount := 3, lastFailureTime := 0,
        config := DEFAULT_CONFIG } : CircuitBreaker).isOpen 60000).1 = false ∧
    (({ state := CircuitState.OPEN, failureCount := 3, lastFailureTime := 0,
        config := DEFAULT_CONFIG } : CircuitBreaker).isOpen 60000).2.state =
      CircuitState.HALF_OPEN ∧
    (∀ cb2 : CircuitBreaker, cb2.state = CircuitState.HALF_OPEN →
      (cb2.isOpen 61000).1 = false ∧
      (cb2.isOpen 61000).2.state = CircuitState.HALF_OPEN) ∧
    (∀ cb2 : CircuitBreaker, cb2.state = CircuitState.HALF_OPEN →
      cb2.recordSuccess.state = CircuitState.CLOSED ∧
      cb2.recordSuccess.failureCount = 0) ∧
    (∀ cb2 : CircuitBreaker, cb2.state = CircuitState.HALF_OPEN →
      cb2.config.failureThreshold ≤ cb2.failureCount + 1 →
      (cb2.recordFailure 61000).state = CircuitState.OPEN) :=
  C4_amended_half_open
    { state := CircuitState.OPEN, failureCount := 3, lastFailureTime := 0,
      config := DEFAULT_CONFIG } 60000 61000 rfl
    (by norm_num [DEFAULT_CONFIG])

/-! ### Poller lemmas and concrete scenario -/

/-- `poll` publishes exactly the converted-and-filtered train list, whether
or not it broadcasts. -/
theorem poll_currentTrains_eq (st : PollState) (cache : String → Option Coord)
    (calcBearing : ℚ → ℚ → ℚ → ℚ → ℚ) (vehicles : List TransiterVehicle)
    (tripDataMap : String → Option TripData) (nowMs : ℚ) :
    (poll st cache calcBearing vehicles tripDataMap nowMs).1.currentTrains =
      pollTrains cache calcBearing vehicles tripDataMap nowMs := by
  simp only [poll]
  split <;> rfl

/-- A concrete stop-coordinate cache: stop "A" at (0,0), stop "B" at (1,1). -/
def c2Cache : String → Option Coord := fun s =>
  if s = "A" then some { lat := 0, lon := 0 }
  else if s = "B" then some { lat := 1, lon := 1 } else none

/-- A concrete (constant) stand-in for the uninterpreted bearing function. -/
def c2Bearing : ℚ → ℚ → ℚ → ℚ → ℚ := fun _ _ _ _ => 0

/-- A concrete in-transit vehicle heading to stop "B", last updated at epoch
second 1000. -/
def c2Vehicle : TransiterVehicle :=
  { id := "v1", trip := some { routeId := some "R", directionId := some false },
    stopId := some "B", currentStatus := some VehicleStatus.IN_TRANSIT_TO,
    updatedAt := some 1000 }

/-- The vehicle's trip schedule: departs "A" at 1000, arrives "B" at 2000. -/
def c2Trip : TripData :=
  { stopTimes := [{ stopId := "A", arrival := some 1000, departure := some 1000 },
                  { stopId := "B", arrival := some 2000, departure := none }] }

/-- The trip-data map resolving every vehicle to the schedule above. -/
def c2TripMap : String → Option TripData := fun _ => some c2Trip

/-- The poller state before the first cycle. -/
def c2Start : PollState := { currentTrains := [], lastUpdateHash := [] }

/-- The train the poller derives from `c2Vehicle` at `nowMs = 1000000`
(progress 0, so it sits at stop "A"). -/
def c2Train1 : Train :=
  { id := "v1", line := "R", direction := Direction.N, latitude := 0,
    longitude := 0, timestamp := 1000000, stopId := "B",
    status := TrainStatus.IN_TRANSIT,
    prevStop := some { stopId := "A", latitude := 0, longitude := 0, time := 1000 },
    nextStop := some { stopId := "B", latitude := 1, longitude := 1, time := 2000 } }

/-- The train derived from the byte-identical upstream data 15 s later
(`nowMs = 1015000`): progress 15/1000, so the position has moved. -/
def c2Train2 : Train :=
  { id := "v1", line := "R", direction := Direction.N, latitude := 3 / 200,
    longitude := 3 / 200, timestamp := 1000000, stopId := "B",
    status := TrainStatus.IN_TRANSIT,
    prevStop := some { stopId := "A", latitude := 0, longitude := 0, time := 1000 },
    nextStop := some { stopId := "B", latitude := 1, longitude := 1, time := 2000 } }

theorem c2_conv1 :
    vehicleToTrain c2Cache c2Bearing c2Vehicle (some c2Trip) 1000000 =
      some c2Train1 := by
  simp [vehicleToTrain, calculateTrainPosition, findStopInTrip, List.find?,
    c2Cache, c2Bearing, c2Vehicle, c2Trip, c2Train1, List.enum, List.enumFrom]
  norm_num [min_def, max_def]

theorem c2_conv2 :
    vehicleToTrain c2Cache c2Bearing c2Vehicle (some c2Trip) 1015000 =
      some c2Train2 := by
  simp [vehicleToTrain, calculateTrainPosition, findStopInTrip, List.find?,
    c2Cache, c2Bearing, c2Vehicle, c2Trip, c2Train2, List.enum, List.enumFrom]
  norm_num [min_def, max_def]

theorem c2_pollTrains1 :
    pollTrains c2Cache c2Bearing [c2Vehicle] c2TripMap 1000000 = [c2Train1] := by
  simp only [pollTrains, List.filterMap_cons, List.filterMap_nil, c2TripMap]
  rw [c2_conv1]
  norm_num [surviveStale, STALE_THRESHOLD_MS, c2Train1]

theorem c2_pollTrains2 :
    pollTrains c2Cache c2Bearing [c2Vehicle] c2TripMap 1015000 = [c2Train2] := by
  simp only [pollTrains, List.filterMap_cons, List.filterMap_nil, c2TripMap]
  rw [c2_conv2]
  norm_num [surviveStale, STALE_THRESHOLD_MS, c2Train2]

theorem c2_hash1 : computeHash [c2Train1] = [("v1", 0, 0)] := by
  norm_num [computeHash, hashEntry, toFixed5, c2Train1, round_eq]

theorem c2_hash2 : computeHash [c2Train2] = [("v1", 1500, 1500)] := by
  norm_num [computeHash, hashEntry, toFixed5, c2Train2, round_eq]

/-! ### C5: staleness invariant -/

/-- **C5**: every train in a published snapshot satisfies
`now − timestamp ≤ 5 minutes` at the instant the staleness filter ran. -/
theorem C5_staleness_invariant (st : PollState) (cache : String → Option Coord)
    (calcBearing : ℚ → ℚ → ℚ → ℚ → ℚ) (vehicles : List TransiterVehicle)
    (tripDataMap : String → Option TripData) (nowMs : ℚ) (train : Train)
    (hMem : train ∈
      (poll st cache calcBearing vehicles tripDataMap nowMs).1.currentTrains) :
    nowMs - train.timestamp ≤ STALE_THRESHOLD_MS := by
  rw [poll_currentTrains_eq] at hMem
  obtain ⟨v, _, hsome⟩ := List.mem_filterMap.1 hMem
  rcases hconv : vehicleToTrain cache calcBearing v (tripDataMap v.id) nowMs with
    _ | train'
  · rw [hconv] at hsome
    exact absurd hsome (by simp)
  · rw [hconv] at hsome
    simp only [Option.ite_none_right_eq_some, Option.some.injEq] at hsome
    obtain ⟨hs, rfl⟩ := hsome
    simpa [surviveStale] using hs

/-- Witness for C5 on the concrete scenario's published train. -/
theorem C5_staleness_invariant_witness :
    1000000 - c2Train1.timestamp ≤ STALE_THRESHOLD_MS :=
  C5_staleness_invariant c2Start c2Cache c2Bearing [c2Vehicle] c2TripMap
    1000000 c2Train1 (by
      rw [poll_currentTrains_eq, c2_pollTrains1]
      simp)

/-! ### C10: missing `updatedAt` timestamp -/

/-- **C10**: a vehicle arriving without `updatedAt` gets the cycle's
wall-clock time as its train's `timestamp`, hence always passes the 5-minute
staleness filter of the cycle that produced it and is published. -/
theorem C10_missing_updated_at (cache : String → Option Coord)
    (calcBearing : ℚ → ℚ → ℚ → ℚ → ℚ) (v : TransiterVehicle)
    (td : Option TripData) (nowMs : ℚ) (train : Train)
    (hNone : v.updatedAt = none)
    (hConv : vehicleToTrain cache calcBearing v td nowMs = some train) :
    train.timestamp = nowMs ∧ surviveStale nowMs train = true ∧
    ∀ st vehicles tripDataMap, v ∈ vehicles → tripDataMap v.id = td →
      train ∈
        (poll st cache calcBearing vehicles tripDataMap nowMs).1.currentTrains := by
  have hts : train.timestamp = nowMs := by
    unfold vehicleToTrain at hConv
    split at hConv
    · exact absurd hConv (by simp)
    · split at hConv
      · exact absurd hConv (by simp)
      · split at hConv
        · exact absurd hConv (by simp)
        · obtain rfl := Option.some.inj hConv
          simp [hNone]
  have hsurv : surviveStale nowMs train = true := by
    simp only [surviveStale, hts, decide_eq_true_eq]
    norm_num [STALE_THRESHOLD_MS]
  refine ⟨hts, hsurv, ?_⟩
  intro st vehicles tripDataMap hvMem htd
  rw [poll_currentTrains_eq]
  refine List.mem_filterMap.2 ⟨v, hvMem, ?_⟩
  rw [htd, hConv]
  simp [hsurv]

/-- The concrete vehicle of the scenario, with no `updatedAt`. -/
def c10Vehicle : TransiterVehicle :=
  { id := "v1", trip := some { routeId := some "R", directionId := some false },
    stopId := some "B", currentStatus := some VehicleStatus.IN_TRANSIT_TO,
    updatedAt := none }

/-- The train derived from `c10Vehicle` at `nowMs = 1015000`: its timestamp
is the wall-clock instant itself. -/
def c10Train : Train :=
  { id := "v1", line := "R", direction := Direction.N, latitude := 3 / 200,
    longitude := 3 / 200, timestamp := 1015000, stopId := "B",
    status := TrainStatus.IN_TRANSIT,
    prevStop := some { stopId := "A", latitude := 0, longitude := 0, time := 1000 },
    nextStop := some { stopId := "B", latitude := 1, longitude := 1, time := 2000 } }

theorem c10_conv :
    vehicleToTrain c2Cache c2Bearing c10Vehicle (some c2Trip) 1015000 =
      some c10Train := by
  simp [vehicleToTrain, calculateTrainPosition, findStopInTrip, List.find?,
    c2Cache, c2Bearing, c10Vehicle, c2Trip, c10Train, List.enum, List.enumFrom]
  norm_num [min_def, max_def]

/-- Witness for C10 on the concrete timestamp-less vehicle. -/
theorem C10_missing_updated_at_witness :
    c10Train.timestamp = 1015000 ∧ surviveStale 1015000 c10Train = true ∧
    c10Train ∈
      (poll c2Start c2Cache c2Bearing [c10Vehicle] c2TripMap
        1015000).1.currentTrains := by
  have h := C10_missing_updated_at c2Cache c2Bearing c10Vehicle (some c2Trip)
    1015000 c10Train rfl c10_conv
  exact ⟨h.1, h.2.1, h.2.2 c2Start [c10Vehicle] c2TripMap (by simp) rfl⟩

/-! ### C2: change detection -/

/-- **C2 counterexample**: two consecutive poll cycles over byte-identical
upstream data (same vehicle list, same trip schedules, same coordinate
cache), run at wall-clock instants 15 s apart, both invoke the broadcast
callback: the content hash covers the time-interpolated position, which
moves between the cycles for the mid-segment train. -/
theorem C2_counterexample :
    (poll c2Start c2Cache c2Bearing [c2Vehicle] c2TripMap 1000000).2 = true ∧
    (poll (poll c2Start c2Cache c2Bearing [c2Vehicle] c2TripMap 1000000).1
      c2Cache c2Bearing [c2Vehicle] c2TripMap 1015000).2 = true := by
  have hst1 : (poll c2Start c2Cache c2Bearing [c2Vehicle] c2TripMap 1000000).1 =
      { currentTrains := [c2Train1], lastUpdateHash := [("v1", 0, 0)] } := by
    simp only [poll, c2_pollTrains1, c2_hash1]
    simp [c2Start]
  refine ⟨?_, ?_⟩
  · simp only [poll, c2_pollTrains1, c2_hash1]
    simp [c2Start]
  · rw [hst1]
    simp only [poll, c2_pollTrains2, c2_hash2]
    simp

/-- Keys are totally ordered: needed for `sorted_insertionSort`. -/
instance : IsTotal Train fun a b => a.id ≤ b.id := ⟨fun a b => le_total a.id b.id⟩

instance : IsTrans Train fun a b => a.id ≤ b.id := ⟨fun _ _ _ => le_trans⟩

/-- Two lists sorted by train id that are permutations of each other and have
no duplicate ids are equal. -/
theorem eq_of_perm_of_sorted_on_id :
    ∀ {l1 l2 : List Train}, l1.Perm l2 →
      l1.Sorted (fun a b => a.id ≤ b.id) →
      l2.Sorted (fun a b => a.id ≤ b.id) →
      (l1.map Train.id).Nodup → l1 = l2 := by
  intro l1
  induction l1 with
  | nil =>
    intro l2 hp _ _ _
    exact hp.nil_eq
  | cons a t ih =>
    intro l2 hp h1 h2 hnd
    cases l2 with
    | nil => exact absurd hp.symm.nil_eq (by simp)
    | cons b t2 =>
      by_cases hab : a = b
      · subst hab
        have ht : t.Perm t2 := hp.cons_inv
        have := ih ht (List.sorted_cons.1 h1).2 (List.sorted_cons.1 h2).2
          (by simpa using (List.nodup_cons.1 (by simpa using hnd)).2)
        rw [this]
      · exfalso
        have haT2 : a ∈ t2 := by
          rcases List.mem_cons.1 (hp.subset (List.mem_cons_self a t)) with h | h
          · exact absurd h hab
          · exact h
        have hbT : b ∈ t := by
          rcases List.mem_cons.1 (hp.symm.subset (List.mem_cons_self b t2)) with
            h | h
          · exact absurd h.symm hab
          · exact h
        have hba : a.id ≤ b.id := (List.sorted_cons.1 h1).1 b hbT
        have hba2 : b.id ≤ a.id := (List.sorted_cons.1 h2).1 a haT2
        have heq : b.id = a.id := le_antisymm hba2 hba
        have hnd2 : ((b :: t2).map Train.id).Nodup := (hp.map Train.id).nodup hnd
        rw [List.map_cons, List.nodup_cons] at hnd2
        exact hnd2.1 (heq ▸ List.mem_map_of_mem Train.id haT2)

/-- **C2 (amended)**: a second poll cycle over byte-identical upstream data
*at the same wall-clock instant* never broadcasts again (the pipeline is
deterministic, so the hash matches the stored one), and the content hash is
invariant under permutation of the train list when train ids are distinct.
Because the hash covers the time-interpolated position, cycles at different
instants over identical upstream bytes can hash differently and re-broadcast
(see the counterexample). -/
theorem C2_amended_change_detection :
    (∀ (st : PollState) (cache : String → Option Coord)
      (calcBearing : ℚ → ℚ → ℚ → ℚ → ℚ) (vehicles : List TransiterVehicle)
      (tripDataMap : String → Option TripData) (nowMs : ℚ),
      (poll (poll st cache calcBearing vehicles tripDataMap nowMs).1
        cache calcBearing vehicles tripDataMap nowMs).2 = false) ∧
    (∀ ts ts2 : List Train, ts.Perm ts2 → (ts.map Train.id).Nodup →
      computeHash ts = computeHash ts2) := by
  constructor
  · intro st cache calcBearing vehicles tripDataMap nowMs
    simp only [poll]
    split
    · simp
    · next h =>
      simp [not_not.1 h]
  · intro ts ts2 hperm hnd
    unfold computeHash
    congr 1
    apply eq_of_perm_of_sorted_on_id
    · exact (List.perm_insertionSort _ ts).trans
        (hperm.trans (List.perm_insertionSort _ ts2).symm)
    · exact List.sorted_insertionSort _ ts
    · exact List.sorted_insertionSort _ ts2
    · exact (((List.perm_insertionSort _ ts).map Train.id).symm).nodup hnd

/-- A second train record, used to witness the permutation invariance. -/
def c2TrainB : Train :=
  { id := "w2", line := "R", direction := Direction.N, latitude := 1,
    longitude := 1, timestamp := 1000000, stopId := "B",
    status := TrainStatus.IN_TRANSIT, prevStop := none, nextStop := none }

/-- Witness for C2's amended statement: an idempotent same-instant second
cycle, and hash invariance under a concrete two-train swap. -/
theorem C2_amended_change_detection_witness :
    (poll (poll c2Start c2Cache c2Bearing [c2Vehicle] c2TripMap 1000000).1
      c2Cache c2Bearing [c2Vehicle] c2TripMap 1000000).2 = false ∧
    computeHash [c2Train1, c2TrainB] = computeHash [c2TrainB, c2Train1] :=
  ⟨C2_amended_change_detection.1 c2Start c2Cache c2Bearing [c2Vehicle]
      c2TripMap 1000000,
   C2_amended_change_detection.2 [c2Train1, c2TrainB] [c2TrainB, c2Train1]
      (List.Perm.swap c2TrainB c2Train1 [])
      (by simp [c2Train1, c2TrainB])⟩

/-! ### C1: interpolation boundary -/

/-- The bundled boundary facts of a clamped linear interpolation between two
anchors. -/
theorem interp_conclusion (T0 T1 now a0 a1 b0 b1 lat lon : ℚ) (hlt : T0 < T1)
    (hlat : lat = lerp a0 a1 (clamp01 ((now - T0) / (T1 - T0))))
    (hlon : lon = lerp b0 b1 (clamp01 ((now - T0) / (T1 - T0)))) :
    0 ≤ clamp01 ((now - T0) / (T1 - T0)) ∧
    clamp01 ((now - T0) / (T1 - T0)) ≤ 1 ∧
    (now ≤ T0 → lat = a0 ∧ lon = b0 ∧ clamp01 ((now - T0) / (T1 - T0)) = 0) ∧
    (T1 ≤ now → lat = a1 ∧ lon = b1 ∧ clamp01 ((now - T0) / (T1 - T0)) = 1) := by
  refine ⟨clamp01_nonneg _, clamp01_le_one _, ?_, ?_⟩
  · intro hle
    have h0 := (progress_boundary T0 T1 now hlt).1 hle
    rw [hlat, hlon, h0, lerp_zero, lerp_zero]
    exact ⟨rfl, rfl, rfl⟩
  · intro hge
    have h1 := (progress_boundary T0 T1 now hlt).2 hge
    rw [hlat, hlon, h1, lerp_one, lerp_one]
    exact ⟨rfl, rfl, rfl⟩

/-- **C1**: whenever the position pipeline produces both timing anchors
`prevStop` (time `T0`) and `nextStop` (time `T1`), then `T0 < T1` and the
position is `lerp` of the two anchor coordinates at
`clamp01((now − T0)/(T1 − T0))`: at `now ≤ T0` it is the previous stop's
coordinates (progress 0), at `now ≥ T1` the next stop's coordinates
(progress 1), and the progress always stays in [0, 1] — no extrapolation.
This holds for the server-side `calculateTrainPosition` and for the
client-side `getTargetPosition`. -/
theorem C1_interpolation_boundary :
    (∀ (cache : String → Option Coord) (calcBearing : ℚ → ℚ → ℚ → ℚ → ℚ)
      (vehicle : TransiterVehicle) (tripData : Option TripData) (now : ℚ)
      (pd : PositionData) (ps ns : StopTiming),
      calculateTrainPosition cache calcBearing vehicle tripData now = some pd →
      pd.prevStop = some ps → pd.nextStop = some ns →
      ps.time < ns.time ∧
      pd.latitude = lerp ps.latitude ns.latitude
        (clamp01 ((now - ps.time) / (ns.time - ps.time))) ∧
      pd.longitude = lerp ps.longitude ns.longitude
        (clamp01 ((now - ps.time) / (ns.time - ps.time))) ∧
      0 ≤ clamp01 ((now - ps.time) / (ns.time - ps.time)) ∧
      clamp01 ((now - ps.time) / (ns.time - ps.time)) ≤ 1 ∧
      (now ≤ ps.time → pd.latitude = ps.latitude ∧ pd.longitude = ps.longitude ∧
        clamp01 ((now - ps.time) / (ns.time - ps.time)) = 0) ∧
      (ns.time ≤ now → pd.latitude = ns.latitude ∧ pd.longitude = ns.longitude ∧
        clamp01 ((now - ps.time) / (ns.time - ps.time)) = 1)) ∧
    (∀ (train : Train) (ps ns : StopTiming) (now : ℚ),
      train.prevStop = some ps → train.nextStop = some ns → ps.time < ns.time →
      (getTargetPosition train now).1 = lerp ps.latitude ns.latitude
        (clamp01 ((now - ps.time) / (ns.time - ps.time))) ∧
      (getTargetPosition train now).2 = lerp ps.longitude ns.longitude
        (clamp01 ((now - ps.time) / (ns.time - ps.time))) ∧
      0 ≤ clamp01 ((now - ps.time) / (ns.time - ps.time)) ∧
      clamp01 ((now - ps.time) / (ns.time - ps.time)) ≤ 1 ∧
      (now ≤ ps.time → (getTargetPosition train now).1 = ps.latitude ∧
        (getTargetPosition train now).2 = ps.longitude ∧
        clamp01 ((now - ps.time) / (ns.time - ps.time)) = 0) ∧
      (ns.time ≤ now → (getTargetPosition train now).1 = ns.latitude ∧
        (getTargetPosition train now).2 = ns.longitude ∧
        clamp01 ((now - ps.time) / (ns.time - ps.time)) = 1)) := by
  constructor
  · intro cache calcBearing vehicle tripData now pd ps ns hcalc hps hns
    simp only [calculateTrainPosition] at hcalc
    repeat' split at hcalc
    all_goals try exact Option.noConfusion hcalc
    all_goals obtain rfl := Option.some.inj hcalc
    all_goals try (exfalso; simp at hps; done)
    rename_i hcond
    obtain rfl := Option.some.inj hps
    obtain rfl := Option.some.inj hns
    obtain ⟨x1, x2, x3, x4⟩ :=
      interp_conclusion _ _ now _ _ _ _ _ _ hcond.2.2 rfl rfl
    exact ⟨hcond.2.2, rfl, rfl, x1, x2, x3, x4⟩
  · intro train ps ns now hps hns hlt
    have hne : ¬ (ns.time - ps.time ≤ 0) := by linarith
    have hgtp : getTargetPosition train now =
        (lerp ps.latitude ns.latitude
          (clamp01 ((now - ps.time) / (ns.time - ps.time))),
         lerp ps.longitude ns.longitude
          (clamp01 ((now - ps.time) / (ns.time - ps.time)))) := by
      simp only [getTargetPosition, hps, hns]
      rw [if_neg hne]
    rw [hgtp]
    obtain ⟨x1, x2, x3, x4⟩ := interp_conclusion ps.time ns.time now
      ps.latitude ns.latitude ps.longitude ns.longitude _ _ hlt rfl rfl
    exact ⟨rfl, rfl, x1, x2, x3, x4⟩

/-- The previous-stop anchor of the concrete scenario. -/
def c1Ps : StopTiming :=
  { stopId := "A", latitude := 0, longitude := 0, time := 1000 }

/-- The next-stop anchor of the concrete scenario. -/
def c1Ns : StopTiming :=
  { stopId := "B", latitude := 1, longitude := 1, time := 2000 }

/-- The position data the server derives for the scenario at epoch second
1500 (midpoint of the segment). -/
def c1Pd : PositionData :=
  { latitude := 1 / 2, longitude := 1 / 2, prevStop := some c1Ps,
    nextStop := some c1Ns, bearing := some 0 }

theorem c1_calc_eval :
    calculateTrainPosition c2Cache c2Bearing c2Vehicle (some c2Trip) 1500 =
      some c1Pd := by
  simp [calculateTrainPosition, findStopInTrip, List.find?, c2Cache, c2Bearing,
    c2Vehicle, c2Trip, c1Pd, c1Ps, c1Ns, List.enum, List.enumFrom]
  norm_num [min_def, max_def]

/-- Witness for C1 on the concrete scenario, server and client side. -/
theorem C1_interpolation_boundary_witness :
    (c1Ps.time < c1Ns.time ∧
     c1Pd.latitude = lerp c1Ps.latitude c1Ns.latitude
       (clamp01 ((1500 - c1Ps.time) / (c1Ns.time - c1Ps.time))) ∧
     c1Pd.longitude = lerp c1Ps.longitude c1Ns.longitude
       (clamp01 ((1500 - c1Ps.time) / (c1Ns.time - c1Ps.time))) ∧
     0 ≤ clamp01 ((1500 - c1Ps.time) / (c1Ns.time - c1Ps.time)) ∧
     clamp01 ((1500 - c1Ps.time) / (c1Ns.time - c1Ps.time)) ≤ 1 ∧
     ((1500 : ℚ) ≤ c1Ps.time → c1Pd.latitude = c1Ps.latitude ∧
       c1Pd.longitude = c1Ps.longitude ∧
       clamp01 ((1500 - c1Ps.time) / (c1Ns.time - c1Ps.time)) = 0) ∧
     (c1Ns.time ≤ 1500 → c1Pd.latitude = c1Ns.latitude ∧
       c1Pd.longitude = c1Ns.longitude ∧
       clamp01 ((1500 - c1Ps.time) / (c1Ns.time - c1Ps.time)) = 1)) ∧
    ((getTargetPosition c2Train1 1500).1 = lerp c1Ps.latitude c1Ns.latitude
       (clamp01 ((1500 - c1Ps.time) / (c1Ns.time - c1Ps.time))) ∧
     (getTargetPosition c2Train1 1500).2 = lerp c1Ps.longitude c1Ns.longitude
       (clamp01 ((1500 - c1Ps.time) / (c1Ns.time - c1Ps.time))) ∧
     0 ≤ clamp01 ((1500 - c1Ps.time) / (c1Ns.time - c1Ps.time)) ∧
     clamp01 ((1500 - c1Ps.time) / (c1Ns.time - c1Ps.time)) ≤ 1 ∧
     ((1500 : ℚ) ≤ c1Ps.time → (getTargetPosition c2Train1 1500).1 = c1Ps.latitude ∧
       (getTargetPosition c2Train1 1500).2 = c1Ps.longitude ∧
       clamp01 ((1500 - c1Ps.time) / (c1Ns.time - c1Ps.time)) = 0) ∧
     (c1Ns.time ≤ 1500 → (getTargetPosition c2Train1 1500).1 = c1Ns.latitude ∧
       (getTargetPosition c2Train1 1500).2 = c1Ns.longitude ∧
       clamp01 ((1500 - c1Ps.time) / (c1Ns.time - c1Ps.time)) = 1)) := by
  constructor
  · exact C1_interpolation_boundary.1 c2Cache c2Bearing c2Vehicle (some c2Trip)
      1500 c1Pd c1Ps c1Ns c1_calc_eval rfl rfl
  · exact C1_interpolation_boundary.2 c2Train1 c1Ps c1Ns 1500 rfl rfl
      (by norm_num [c1Ps, c1Ns])

/-! ### C8: arrival selection -/

/-- Every element of a group in `insertByRoute`'s output carries the group's
route key. -/
theorem insertByRoute_key_inv {m : List (String × List ProcessedTrain)}
    {t : ProcessedTrain}
    (hm : ∀ kg ∈ m, ∀ x ∈ kg.2, x.routeId = kg.1) :
    ∀ kg ∈ insertByRoute m t, ∀ x ∈ kg.2, x.routeId = kg.1 := by
  induction m with
  | nil =>
    intro kg hkg x hx
    simp only [insertByRoute, List.mem_singleton] at hkg
    subst hkg
    simp only [List.mem_singleton] at hx
    subst hx
    rfl
  | cons hd rest ih =>
    obtain ⟨k, g⟩ := hd
    intro kg hkg x hx
    simp only [insertByRoute] at hkg
    split at hkg
    case isTrue hk =>
      rcases List.mem_cons.1 hkg with rfl | hkg2
      · rcases List.mem_append.1 hx with hx1 | hx2
        · exact hm (k, g) (List.mem_cons_self _ _) x hx1
        · simp only [List.mem_singleton] at hx2
          subst hx2
          exact hk.symm
      · exact hm kg (List.mem_cons_of_mem _ hkg2) x hx
    case isFalse hk =>
      rcases List.mem_cons.1 hkg with rfl | hkg2
      · exact hm (k, g) (List.mem_cons_self _ _) x hx
      · exact ih (fun kg2 h2 => hm kg2 (List.mem_cons_of_mem _ h2)) kg hkg2 x hx

/-- Every element of a group in `buildByRoute`'s output carries the group's
route key. -/
theorem byRoute_key_inv (processed : List ProcessedTrain) :
    ∀ kg ∈ buildByRoute processed, ∀ x ∈ kg.2, x.routeId = kg.1 := by
  suffices h : ∀ (l : List ProcessedTrain) (m : List (String × List ProcessedTrain)),
      (∀ kg ∈ m, ∀ x ∈ kg.2, x.routeId = kg.1) →
      ∀ kg ∈ l.foldl insertByRoute m, ∀ x ∈ kg.2, x.routeId = kg.1 by
    exact h processed [] (by simp)
  intro l
  induction l with
  | nil =>
    intro m hm
    simpa using hm
  | cons a rest ih =>
    intro m hm
    exact ih _ (insertByRoute_key_inv hm)

/-- `insertByRoute` adds no key other than possibly the new train's route. -/
theorem insertByRoute_keys_subset (m : List (String × List ProcessedTrain))
    (t : ProcessedTrain) :
    ∀ s ∈ (insertByRoute m t).map Prod.fst,
      s ∈ m.map Prod.fst ∨ s = t.routeId := by
  induction m with
  | nil =>
    intro s hs
    simp only [insertByRoute, List.map_cons, List.map_nil] at hs
    simp only [List.mem_singleton] at hs
    exact Or.inr hs
  | cons hd rest ih =>
    obtain ⟨k, g⟩ := hd
    intro s hs
    simp only [insertByRoute] at hs
    split at hs
    · rw [List.map_cons] at hs
      rcases List.mem_cons.1 hs with h1 | h2
      · exact Or.inl (by rw [List.map_cons]; exact List.mem_cons.2 (Or.inl h1))
      · exact Or.inl (by rw [List.map_cons]; exact List.mem_cons.2 (Or.inr h2))
    · rw [List.map_cons] at hs
      rcases List.mem_cons.1 hs with h1 | h2
      · exact Or.inl (by rw [List.map_cons]; exact List.mem_cons.2 (Or.inl h1))
      · rcases ih s h2 with h3 | h3
        · exact Or.inl (by rw [List.map_cons]; exact List.mem_cons.2 (Or.inr h3))
        · exact Or.inr h3

/-- `insertByRoute` keeps the key list duplicate-free. -/
theorem insertByRoute_keys_nodup {m : List (String × List ProcessedTrain)}
    (h : (m.map Prod.fst).Nodup) (t : ProcessedTrain) :
    ((insertByRoute m t).map Prod.fst).Nodup := by
  induction m with
  | nil => simp [insertByRoute]
  | cons hd rest ih =>
    obtain ⟨k, g⟩ := hd
    rw [List.map_cons, List.nodup_cons] at h
    simp only [insertByRoute]
    split
    case isTrue hk =>
      rw [List.map_cons, List.nodup_cons]
      exact h
    case isFalse hk =>
      rw [List.map_cons, List.nodup_cons]
      refine ⟨?_, ih h.2⟩
      intro hmem
      rcases insertByRoute_keys_subset rest t k hmem with h2 | h2
      · exact h.1 h2
      · exact hk h2

/-- The grouping keys of `buildByRoute` are duplicate-free. -/
theorem byRoute_keys_nodup (processed : List ProcessedTrain) :
    ((buildByRoute processed).map Prod.fst).Nodup := by
  suffices h : ∀ (l : List ProcessedTrain) (m : List (String × List ProcessedTrain)),
      (m.map Prod.fst).Nodup → ((l.foldl insertByRoute m).map Prod.fst).Nodup by
    exact h processed [] (by simp)
  intro l
  induction l with
  | nil =>
    intro m hm
    simpa using hm
  | cons a rest ih =>
    intro m hm
    exact ih _ (insertByRoute_keys_nodup hm a)

/-- The inserted train lands in the group keyed by its route. -/
theorem insertByRoute_exists_self (m : List (String × List ProcessedTrain))
    (t : ProcessedTrain) :
    ∃ kg ∈ insertByRoute m t, t ∈ kg.2 ∧ kg.1 = t.routeId := by
  induction m with
  | nil => exact ⟨(t.routeId, [t]), by simp [insertByRoute], by simp, rfl⟩
  | cons hd rest ih =>
    obtain ⟨k, g⟩ := hd
    simp only [insertByRoute]
    split
    case isTrue hk =>
      exact ⟨(k, g ++ [t]), List.mem_cons_self _ _, by simp, hk⟩
    case isFalse hk =>
      obtain ⟨kg, hkg, hmem, heq⟩ := ih
      exact ⟨kg, List.mem_cons_of_mem _ hkg, hmem, heq⟩

/-- Group membership is preserved when further trains are inserted. -/
theorem insertByRoute_exists_mono {m : List (String × List ProcessedTrain)}
    {x : ProcessedTrain}
    (h : ∃ kg ∈ m, x ∈ kg.2 ∧ kg.1 = x.routeId) (t : ProcessedTrain) :
    ∃ kg ∈ insertByRoute m t, x ∈ kg.2 ∧ kg.1 = x.routeId := by
  induction m with
  | nil => simp at h
  | cons hd rest ih =>
    obtain ⟨k, g⟩ := hd
    obtain ⟨kg, hkg, hxm, hk1⟩ := h
    simp only [insertByRoute]
    rcases List.mem_cons.1 hkg with rfl | hrest
    · split
      case isTrue hk =>
        exact ⟨(k, g ++ [t]), List.mem_cons_self _ _,
          List.mem_append_left _ hxm, hk1⟩
      case isFalse hk =>
        exact ⟨(k, g), List.mem_cons_self _ _, hxm, hk1⟩
    · split
      case isTrue hk =>
        exact ⟨kg, List.mem_cons_of_mem _ hrest, hxm, hk1⟩
      case isFalse hk =>
        obtain ⟨kg2, hkg2, hxm2, hk2⟩ := ih ⟨kg, hrest, hxm, hk1⟩
        exact ⟨kg2, List.mem_cons_of_mem _ hkg2, hxm2, hk2⟩

theorem foldl_exists_mono {x : ProcessedTrain} :
    ∀ (l : List ProcessedTrain) (m : List (String × List ProcessedTrain)),
      (∃ kg ∈ m, x ∈ kg.2 ∧ kg.1 = x.routeId) →
      ∃ kg ∈ l.foldl insertByRoute m, x ∈ kg.2 ∧ kg.1 = x.routeId := by
  intro l
  induction l with
  | nil =>
    intro m h
    simpa using h
  | cons a rest ih =>
    intro m h
    exact ih _ (insertByRoute_exists_mono h a)

/-- Every processed train sits in the group keyed by its route. -/
theorem mem_buildByRoute {x : ProcessedTrain} :
    ∀ (l : List ProcessedTrain), x ∈ l →
      ∃ kg ∈ buildByRoute l, x ∈ kg.2 ∧ kg.1 = x.routeId := by
  suffices h : ∀ (l : List ProcessedTrain) (m : List (String × List ProcessedTrain)),
      x ∈ l → ∃ kg ∈ l.foldl insertByRoute m, x ∈ kg.2 ∧ kg.1 = x.routeId by
    intro l hx
    exact h l [] hx
  intro l
  induction l with
  | nil =>
    intro m h
    simp at h
  | cons a rest ih =>
    intro m hx
    rcases List.mem_cons.1 hx with rfl | hmem
    · exact foldl_exists_mono rest _ (insertByRoute_exists_self m x)
    · exact ih _ hmem

/-- `insertByRoute` never removes a grouping key. -/
theorem insertByRoute_keys_mono {m : List (String × List ProcessedTrain)}
    {s : String} (h : s ∈ m.map Prod.fst) (t : ProcessedTrain) :
    s ∈ (insertByRoute m t).map Prod.fst := by
  induction m with
  | nil => simp at h
  | cons hd rest ih =>
    obtain ⟨k, g⟩ := hd
    rw [List.map_cons] at h
    simp only [insertByRoute]
    split
    · rw [List.map_cons]
      exact h
    · rw [List.map_cons]
      rcases List.mem_cons.1 h with h1 | h2
      · exact List.mem_cons.2 (Or.inl h1)
      · exact List.mem_cons.2 (Or.inr (ih h2))

/-- After inserting a train, its route is one of the grouping keys. -/
theorem insertByRoute_self_key (m : List (String × List ProcessedTrain))
    (t : ProcessedTrain) :
    t.routeId ∈ (insertByRoute m t).map Prod.fst := by
  obtain ⟨kg, hkg, _, hk⟩ := insertByRoute_exists_self m t
  rw [← hk]
  exact List.mem_map_of_mem Prod.fst hkg

/-- One `insertByRoute` step preserves "each group is the ordered filter of
the trains seen so far by its route key". -/
theorem insertByRoute_groups_step :
    ∀ {m : List (String × List ProcessedTrain)}
      (done : List ProcessedTrain) (t : ProcessedTrain),
      (m.map Prod.fst).Nodup →
      (∀ kg ∈ m, kg.2 = done.filter fun x => x.routeId = kg.1) →
      (t.routeId ∉ m.map Prod.fst →
        (done.filter fun x => x.routeId = t.routeId) = []) →
      ∀ kg ∈ insertByRoute m t,
        kg.2 = (done ++ [t]).filter fun x => x.routeId = kg.1 := by
  intro m
  induction m with
  | nil =>
    intro done t _ _ hnew kg hkg
    simp only [insertByRoute, List.mem_singleton] at hkg
    subst hkg
    show [t] = (done ++ [t]).filter fun x => x.routeId = t.routeId
    rw [List.filter_append, hnew (by simp)]
    simp
  | cons hd rest ih =>
    intro done t hnd hgr hnew kg hkg
    obtain ⟨k, g⟩ := hd
    rw [List.map_cons, List.nodup_cons] at hnd
    simp only [insertByRoute] at hkg
    split at hkg
    case isTrue hk =>
      rcases List.mem_cons.1 hkg with rfl | h2
      · show g ++ [t] = (done ++ [t]).filter fun x => x.routeId = k
        have hg : g = done.filter fun x => x.routeId = k := by
          simpa using hgr (k, g) (List.mem_cons_self _ _)
        have ht : ([t].filter fun x => x.routeId = k) = [t] := by
          simp [← hk]
        rw [List.filter_append, ht, hg]
      · have hne : ¬ t.routeId = kg.1 := by
          intro hEq
          refine hnd.1 ?_
          have hmem : kg.1 ∈ rest.map Prod.fst :=
            List.mem_map_of_mem Prod.fst h2
          rwa [← hEq, ← hk] at hmem
        have hgk := hgr kg (List.mem_cons_of_mem _ h2)
        have ht : ([t].filter fun x => x.routeId = kg.1) = [] := by
          simp [hne]
        rw [List.filter_append, ht, List.append_nil, ← hgk]
    case isFalse hk =>
      rcases List.mem_cons.1 hkg with rfl | h2
      · show g = (done ++ [t]).filter fun x => x.routeId = k
        have hg : g = done.filter fun x => x.routeId = k := by
          simpa using hgr (k, g) (List.mem_cons_self _ _)
        have ht : ([t].filter fun x => x.routeId = k) = [] := by
          simp
          intro hEq
          exact hk hEq.symm
        rw [List.filter_append, ht, List.append_nil, hg]
      · refine ih done t hnd.2
          (fun kg2 h => hgr kg2 (List.mem_cons_of_mem _ h)) ?_ kg h2
        intro hnotin
        apply hnew
        rw [List.map_cons]
        intro hmem
        rcases List.mem_cons.1 hmem with h1 | h1
        · exact hk h1.symm
        · exact hnotin h1

/-- One `insertByRoute` step preserves "every seen train's route is a key". -/
theorem insertByRoute_covers {done : List ProcessedTrain}
    {m : List (String × List ProcessedTrain)} {t : ProcessedTrain}
    (h2 : ∀ x ∈ done, x.routeId ∈ m.map Prod.fst) :
    ∀ x ∈ done ++ [t], x.routeId ∈ (insertByRoute m t).map Prod.fst := by
  intro x hx
  rcases List.mem_append.1 hx with h | h
  · exact insertByRoute_keys_mono (h2 x h) t
  · simp only [List.mem_singleton] at h
    subst h
    exact insertByRoute_self_key m x

/-- Each group of `buildByRoute` is exactly the ordered sublist of the
processed trains on that route. -/
theorem byRoute_groups (processed : List ProcessedTrain) :
    ∀ kg ∈ buildByRoute processed,
      kg.2 = processed.filter fun x => x.routeId = kg.1 := by
  suffices h : ∀ (l done : List ProcessedTrain)
      (m : List (String × List ProcessedTrain)),
      (m.map Prod.fst).Nodup →
      (∀ kg ∈ m, kg.2 = done.filter fun x => x.routeId = kg.1) →
      (∀ x ∈ done, x.routeId ∈ m.map Prod.fst) →
      ∀ kg ∈ l.foldl insertByRoute m,
        kg.2 = (done ++ l).filter fun x => x.routeId = kg.1 by
    intro kg hkg
    simpa using h processed [] [] (by simp) (by simp) (by simp) kg hkg
  intro l
  induction l with
  | nil =>
    intro done m _ hgr _ kg hkg
    simpa using hgr kg hkg
  | cons a rest ih =>
    intro done m hnd hgr hcov kg hkg
    have hnew : a.routeId ∉ m.map Prod.fst →
        (done.filter fun x => x.routeId = a.routeId) = [] := by
      intro hnotin
      refine List.filter_eq_nil_iff.2 ?_
      intro x hx
      simp only [decide_eq_true_eq]
      intro hEq
      exact hnotin (hEq ▸ hcov x hx)
    have step := ih (done ++ [a]) (insertByRoute m a)
      (insertByRoute_keys_nodup hnd a)
      (insertByRoute_groups_step done a hnd hgr hnew)
      (insertByRoute_covers hcov) kg hkg
    simpa [List.append_assoc] using step

/-- What the per-route pick guarantees about its output. -/
theorem pickForRoute_spec {g : List ProcessedTrain} {u : ProcessedTrain}
    (h : pickForRoute g = some u) :
    (∃ x ∈ g, u.routeId = x.routeId) ∧ u.severity ≠ Severity.tooSoon ∧
    (u.isIdeal = true ∨ u.isAlternative = true) := by
  simp only [pickForRoute] at h
  split at h
  case h_1 ideal hfind =>
    obtain rfl := Option.some.inj h
    have hmem := List.mem_of_find?_eq_some hfind
    have hpred := List.find?_some hfind
    have hg := List.mem_filter.1 hmem
    refine ⟨⟨_, hg.1, rfl⟩, ?_, Or.inl hpred⟩
    simpa using hg.2
  case h_2 hfind =>
    split at h
    · exact absurd h (by simp)
    case h_2 c rest hc =>
      obtain rfl := Option.some.inj h
      have hmem : c ∈ g.filter fun t => t.severity ≠ Severity.tooSoon := by
        rw [hc]
        exact List.mem_cons_self c rest
      have hg := List.mem_filter.1 hmem
      refine ⟨⟨c, hg.1, rfl⟩, ?_, Or.inr rfl⟩
      simpa using hg.2

/-- The per-route pick succeeds whenever the group has a catchable train. -/
theorem pickForRoute_isSome {g : List ProcessedTrain} {x : ProcessedTrain}
    (hx : x ∈ g) (hsev : x.severity ≠ Severity.tooSoon) :
    ∃ u, pickForRoute g = some u := by
  simp only [pickForRoute]
  split
  · exact ⟨_, rfl⟩
  case h_2 hfind =>
    split
    case h_1 hnil =>
      exfalso
      have hmem : x ∈ g.filter fun t => t.severity ≠ Severity.tooSoon :=
        List.mem_filter.2 ⟨hx, by simpa using hsev⟩
      rw [hnil] at hmem
      simp at hmem
    · exact ⟨_, rfl⟩

/-- Picked trains carry a key of the grouping. -/
theorem mem_filterMap_routeId {m : List (String × List ProcessedTrain)}
    (hinv : ∀ kg ∈ m, ∀ x ∈ kg.2, x.routeId = kg.1)
    {u : ProcessedTrain} (hu : u ∈ m.filterMap fun kg => pickForRoute kg.2) :
    u.routeId ∈ m.map Prod.fst := by
  obtain ⟨kg, hkg, hpick⟩ := List.mem_filterMap.1 hu
  obtain ⟨⟨x, hx, hux⟩, -, -⟩ := pickForRoute_spec hpick
  rw [hux, hinv kg hkg x hx]
  exact List.mem_map_of_mem Prod.fst hkg

/-- With duplicate-free keys, the picked trains have duplicate-free routes. -/
theorem filterMap_pick_nodup :
    ∀ {m : List (String × List ProcessedTrain)},
      (m.map Prod.fst).Nodup →
      (∀ kg ∈ m, ∀ x ∈ kg.2, x.routeId = kg.1) →
      ((m.filterMap fun kg => pickForRoute kg.2).map fun t => t.routeId).Nodup := by
  intro m
  induction m with
  | nil =>
    intro _ _
    simp
  | cons hd rest ih =>
    intro hnd hinv
    obtain ⟨k, g⟩ := hd
    rw [List.map_cons, List.nodup_cons] at hnd
    rw [List.filterMap_cons]
    rcases hpick : pickForRoute g with _ | u
    · exact ih hnd.2 fun kg h => hinv kg (List.mem_cons_of_mem _ h)
    · rw [List.map_cons, List.nodup_cons]
      refine ⟨?_, ih hnd.2 fun kg h => hinv kg (List.mem_cons_of_mem _ h)⟩
      intro hmem
      have h1 : u.routeId = k := by
        obtain ⟨⟨x, hx, hux⟩, -, -⟩ := pickForRoute_spec hpick
        rw [hux]
        exact hinv (k, g) (List.mem_cons_self _ _) x hx
      have h2 : u.routeId ∈ rest.map Prod.fst := by
        obtain ⟨v, hv, hveq⟩ := List.mem_map.1 hmem
        rw [← hveq]
        exact mem_filterMap_routeId
          (fun kg h => hinv kg (List.mem_cons_of_mem _ h)) hv
      rw [h1] at h2
      exact hnd.1 h2

/-- Concrete ideal arrivals on three distinct routes, plus a second ideal
arrival on route "A". -/
def c8A : ProcessedTrain :=
  { routeId := "A", arrivalTime := 100, leaveAtMinutes := 1, isIdeal := true,
    isAlternative := false, severity := Severity.ideal }

def c8B : ProcessedTrain :=
  { routeId := "B", arrivalTime := 200, leaveAtMinutes := 2, isIdeal := true,
    isAlternative := false, severity := Severity.ideal }

def c8C : ProcessedTrain :=
  { routeId := "C", arrivalTime := 300, leaveAtMinutes := 3, isIdeal := true,
    isAlternative := false, severity := Severity.ideal }

def c8A2 : ProcessedTrain :=
  { routeId := "A", arrivalTime := 200, leaveAtMinutes := 2, isIdeal := true,
    isAlternative := false, severity := Severity.ideal }

/-- **C8 counterexample**: the selection is per route, not "up to 2 ideal per
direction": with ideal arrivals on three routes it surfaces 3 ideal arrivals
(more than 2), and with two ideal arrivals on one route it surfaces only 1
(never a second ideal of the same route). -/
theorem C8_counterexample :
    ((selectBestTrains [c8A, c8B, c8C]).filter fun t => t.isIdeal).length = 3 ∧
    (selectBestTrains [c8A, c8A2]).length = 1 := by
  constructor
  · simp [selectBestTrains, buildByRoute, insertByRoute, pickForRoute,
      List.find?, c8A, c8B, c8C, List.insertionSort, List.orderedInsert]
    norm_num
  · simp [selectBestTrains, buildByRoute, insertByRoute, pickForRoute,
      List.find?, c8A, c8A2, List.insertionSort, List.orderedInsert]

/-- **C8 (amended)**: per direction the selection works per route, surfacing
at most one arrival per route. For each surfaced train `u`, writing
`catchable` for the non-too-soon arrivals of `u`'s route taken in processed
order (arrival-time-sorted by `processArrivals`), `u` is the first ideal
member of `catchable` when one exists (pushed unmodified), and otherwise
`catchable`'s first element flagged `isAlternative`; too-soon arrivals are
never surfaced, every route with a catchable arrival is represented, and
routes are not deduplicated against each other. -/
theorem C8_amended_selection (processed : List ProcessedTrain) :
    ((selectBestTrains processed).map fun t => t.routeId).Nodup ∧
    (∀ t ∈ selectBestTrains processed, t.severity ≠ Severity.tooSoon) ∧
    (∀ t ∈ selectBestTrains processed,
      t.isIdeal = true ∨ t.isAlternative = true) ∧
    (∀ u ∈ selectBestTrains processed,
      ((processed.filter fun x => x.routeId = u.routeId).filter
          fun x => x.severity ≠ Severity.tooSoon).find?
        (fun x => x.isIdeal) = some u ∨
      (((processed.filter fun x => x.routeId = u.routeId).filter
          fun x => x.severity ≠ Severity.tooSoon).find?
        (fun x => x.isIdeal) = none ∧
       ∃ c rest,
        ((processed.filter fun x => x.routeId = u.routeId).filter
          fun x => x.severity ≠ Severity.tooSoon) = c :: rest ∧
        u = { c with isAlternative := true })) ∧
    (∀ t ∈ processed, t.severity ≠ Severity.tooSoon →
      ∃ u ∈ selectBestTrains processed, u.routeId = t.routeId) := by
  have hinv := byRoute_key_inv processed
  have hperm := List.perm_insertionSort
    (fun a b : ProcessedTrain => a.arrivalTime ≤ b.arrivalTime)
    ((buildByRoute processed).filterMap fun kg => pickForRoute kg.2)
  simp only [selectBestTrains]
  refine ⟨?_, ?_, ?_, ?_, ?_⟩
  · exact ((hperm.map fun t => t.routeId).symm).nodup
      (filterMap_pick_nodup (byRoute_keys_nodup processed) hinv)
  · intro t ht
    obtain ⟨kg, hkg, hpick⟩ := List.mem_filterMap.1 (hperm.subset ht)
    exact (pickForRoute_spec hpick).2.1
  · intro t ht
    obtain ⟨kg, hkg, hpick⟩ := List.mem_filterMap.1 (hperm.subset ht)
    exact (pickForRoute_spec hpick).2.2
  · intro u hu
    obtain ⟨kg, hkg, hpick⟩ := List.mem_filterMap.1 (hperm.subset hu)
    have hkey : u.routeId = kg.1 := by
      obtain ⟨⟨x, hx, hux⟩, -, -⟩ := pickForRoute_spec hpick
      rw [hux]
      exact hinv kg hkg x hx
    have hgrp : (processed.filter fun x => x.routeId = u.routeId) = kg.2 := by
      rw [hkey]
      exact (byRoute_groups processed kg hkg).symm
    rw [hgrp]
    simp only [pickForRoute] at hpick
    split at hpick
    case h_1 ideal hfind =>
      have hid := Option.some.inj hpick
      rw [← hid]
      exact Or.inl hfind
    case h_2 hfind =>
      split at hpick
      · exact absurd hpick (by simp)
      case h_2 c rest2 hc =>
        have hid := Option.some.inj hpick
        exact Or.inr ⟨hfind, c, rest2, hc, hid.symm⟩
  · intro t ht hsev
    obtain ⟨kg, hkg, hxm, hk1⟩ := mem_buildByRoute processed ht
    obtain ⟨u, hu⟩ := pickForRoute_isSome hxm hsev
    have huL : u ∈ (buildByRoute processed).filterMap
        fun kg => pickForRoute kg.2 := List.mem_filterMap.2 ⟨kg, hkg, hu⟩
    have hurid : u.routeId = t.routeId := by
      obtain ⟨⟨x, hx, hux⟩, -, -⟩ := pickForRoute_spec hu
      rw [hux, hinv kg hkg x hx, hk1]
    exact ⟨u, hperm.symm.subset huL, hurid⟩

/-- A too-soon arrival on route "B", for the amended-claim witness. -/
def c8TooSoon : ProcessedTrain :=
  { routeId := "B", arrivalTime := 50, leaveAtMinutes := 0, isIdeal := false,
    isAlternative := false, severity := Severity.tooSoon }

/-- Witness for C8's amended statement on a concrete arrival list: route "A"
has an ideal arrival (surfaced as its route's first catchable ideal), and
route "B" has only a too-soon arrival (not represented). -/
theorem C8_amended_selection_witness :
    ((selectBestTrains [c8A, c8TooSoon]).map fun t => t.routeId).Nodup ∧
    ((([c8A, c8TooSoon].filter fun x => x.routeId = c8A.routeId).filter
        fun x => x.severity ≠ Severity.tooSoon).find?
      (fun x => x.isIdeal) = some c8A ∨
     ((([c8A, c8TooSoon].filter fun x => x.routeId = c8A.routeId).filter
        fun x => x.severity ≠ Severity.tooSoon).find?
      (fun x => x.isIdeal) = none ∧
      ∃ c rest,
        (([c8A, c8TooSoon].filter fun x => x.routeId = c8A.routeId).filter
          fun x => x.severity ≠ Severity.tooSoon) = c :: rest ∧
        c8A = { c with isAlternative := true })) ∧
    ∃ u ∈ selectBestTrains [c8A, c8TooSoon], u.routeId = c8A.routeId := by
  have hmem : c8A ∈ selectBestTrains [c8A, c8TooSoon] := by
    simp [selectBestTrains, buildByRoute, insertByRoute, pickForRoute,
      List.find?, c8A, c8TooSoon, List.insertionSort, List.orderedInsert]
  exact ⟨(C8_amended_selection [c8A, c8TooSoon]).1,
    (C8_amended_selection [c8A, c8TooSoon]).2.2.2.1 c8A hmem,
    (C8_amended_selection [c8A, c8TooSoon]).2.2.2.2 c8A (by simp)
      (by simp [c8A])⟩

end Subway

